import Mathlib

/-!
Verification of the vid-analyzer feature-extraction pipeline.

Shallow embedding of the Rust sources under `scripts/`:
`process_audio/src/main.rs` (pitch), `process_volume/src/main.rs`
(RMS/energy), `pre-process_hubert/src/main.rs`, and the
`process_features` modules `spectral_features.rs`, `jitter_shimmer.rs`
and `formant_analysis.rs`.

Conventions of the embedding:
* `f64` values are modelled as exact real numbers (`ℝ`) where the code
  applies transcendental functions (cos, sqrt, FFT), and as rationals
  (`ℚ`) where the arithmetic is rational, so that those definitions
  stay executable.  `usize` values are `ℕ`, raw decoded samples `ℤ`.
* A `while` loop is modelled as a fuel-indexed recursion whose guard is
  tested before the fuel (so fuel exhaustion is reported as `none` only
  on a genuinely unfinished loop); loops whose variables strictly
  increase get the obvious sufficient fuel at the call site.
* Formatted CSV cells are modelled by the inductive `Cell`: `Cell.val x`
  stands for a formatted decimal rendering of the number `x` (the
  format-precision suffix is not modelled), `Cell.blank` for the empty
  string `""`, and `Cell.noData` for the literal string pushed by
  `process_audio`'s merger for a channel without an entry.
* CSV/file/progress-bar I/O is out of scope; each `process` function is
  modelled by the list of logical rows it writes, with Rust panics
  (`i % 0`, `step_by(0)`) surfaced as `Except.error`.
-/

namespace VidAnalyzer

/-! ## Chunk planner

From `process_audio/src/main.rs` lines 121-129 (identical loop in
`formant_analysis.rs` lines 162-169):

    let mut chunk_indices = Vec::new();
    let mut start = 0;
    while start < normalized_samples.len() {
        let end = (start + chunk_samples + overlap_samples).min(normalized_samples.len());
        chunk_indices.push((start, end));
        start += chunk_samples;
    }
-/

/-- One fuel-indexed unfolding of the chunk-planner `while` loop.
`c` is `chunk_samples`, `o` is `overlap_samples`, `L` the channel
length, `start` the loop variable.  The guard is tested before the
fuel, so `none` is returned exactly when the loop is still running
after `fuel` iterations. -/
def chunkLoopFuel (c o L : ℕ) : ℕ → ℕ → Option (List (ℕ × ℕ))
  | 0, start => if start < L then none else some []
  | fuel + 1, start =>
    if start < L then
      (chunkLoopFuel c o L fuel (start + c)).map
        (fun rest => (start, min (start + c + o) L) :: rest)
    else
      some []

/-- The planner's chunk list, run with fuel `L` (shown sufficient for
`0 < c` in `chunkLoopFuel_eq_chunkSpec`). -/
def chunk_indices (c o L : ℕ) : Option (List (ℕ × ℕ)) :=
  chunkLoopFuel c o L L 0

/-- Number of chunks the planner emits: the number of `k` with `k*c < L`. -/
def numChunks (L c : ℕ) : ℕ := (L + c - 1) / c

/-- The closed form of the chunk plan as the spec states it:
`start_k = k * chunk_samples`, `end_k = min(start_k + chunk_samples +
overlap_samples, L)` for `k = 0, 1, ...` until `start_k ≥ L`. -/
def chunkSpec (c o L : ℕ) : List (ℕ × ℕ) :=
  (List.range (numChunks L c)).map (fun k => (k * c, min (k * c + c + o) L))

/-- Chunks remaining when the loop variable stands at `m * c`. -/
def chunksFrom (L c m : ℕ) : ℕ := (L - m * c + c - 1) / c

/-! ## CSV cells -/

/-- A logical CSV cell.  `val x` models a formatted decimal string
rendering `x` (format precision is not modelled), `blank` the empty
string `""`, `noData` the literal `"no data"` string pushed by
`process_audio`'s merger for a channel with no entry at a row. -/
inductive Cell where
  | val : ℝ → Cell
  | blank : Cell
  | noData : Cell

/-- `true` iff the cell is a formatted value (not a sentinel string). -/
def Cell.isValue : Cell → Bool
  | .val _ => true
  | _ => false

/-- `opt.map(|x| format!(.., x)).unwrap_or_default()`: a value renders as a
decimal string, `None` as the empty string. -/
def cellOfOpt (x : Option ℝ) : Cell :=
  match x with
  | some v => Cell.val v
  | none => Cell.blank

/-- `(0..len).step_by(hop)` for `hop > 0` (Rust's `step_by` panics on a
zero step; the callers that can reach a zero step surface that panic
as an `Except.error`). -/
def stepBy (len hop : ℕ) : List ℕ :=
  (List.range (numChunks len hop)).map (· * hop)

/-! ## Channel demultiplexer

From `process_audio/src/main.rs` lines 70-75 (the same loop appears in
`process_volume`, `spectral_features`, `jitter_shimmer` and
`formant_analysis`):

    let mut channel_buffers: Vec<Vec<f64>> = vec![Vec::new(); channels];
    for (i, sample) in flac.samples().enumerate() {
        let s = sample?;
        let chan = i % channels;
        channel_buffers[chan].push(s as f64 / i32::MAX as f64);
    }

The push of sample `i` onto buffer `i % C` is modelled generically in the
element type; normalization of the pushed value is `normalizeFeatureSample`
below, applied to the sample list before demultiplexing. -/

/-- The demultiplexer loop: push each sample onto buffer `i % C`. -/
def demuxGo {α : Type} (C : ℕ) : List (List α) → ℕ → List α → List (List α)
  | bufs, _, [] => bufs
  | bufs, i, x :: rest =>
      demuxGo C (bufs.set (i % C) ((bufs.getD (i % C) []) ++ [x])) (i + 1) rest

/-- The demultiplexer.  With `C = 0` and a nonempty sample stream the Rust
loop panics on `i % 0`; that panic is modelled as an error. -/
def demux {α : Type} (C : ℕ) (samples : List α) : Except String (List (List α)) :=
  if C = 0 ∧ samples.isEmpty = false then
    Except.error "panicked: remainder with a divisor of zero"
  else
    Except.ok (demuxGo C (List.replicate C []) 0 samples)

/-- The samples of `s` that land in buffer `j`, when the enumeration starts
at index `i`. -/
def chanOf {α : Type} (C : ℕ) : ℕ → List α → ℕ → List α
  | _, [], _ => []
  | i, x :: rest, j => (if i % C = j then [x] else []) ++ chanOf C (i + 1) rest j

/-- Closed form of a buffer's length: `N / C` plus one more for the
channels below `N mod C`. -/
def chanLen (C N j : ℕ) : ℕ := N / C + if j < N % C then 1 else 0

/-! ## Sample normalization -/

/-- `s as f64 / i32::MAX as f64` — the normalization applied by every
feature-extraction pipeline while demultiplexing (`process_audio`,
`process_volume`, `spectral_features.rs`, `jitter_shimmer.rs`,
`formant_analysis.rs`): a fixed divisor `i32::MAX = 2^31 - 1`,
independent of the source bit depth. -/
def normalizeFeatureSample (s : ℤ) : ℚ := (s : ℚ) / 2147483647

/-- `let max_value = (1i32 << (bits_per_sample - 1)) as f32; ... s as f32 /
max_value` — the bit-depth-aware normalization of
`pre-process_hubert/src/main.rs` lines 21-27. -/
def hubertNormalize (bits : ℕ) (s : ℤ) : ℚ := (s : ℚ) / 2 ^ (bits - 1)

/-! ## Startup validation -/

/-- `pre-process_hubert/src/main.rs` lines 23-25:

    if channels == 0 || sample_rate == 0 {
        return Err("Invalid audio file: zero channels or sample rate".into());
    }
-/
def preprocessFlacCheck (channels sampleRate : ℕ) : Except String Unit :=
  if channels = 0 ∨ sampleRate = 0 then
    Except.error "Invalid audio file: zero channels or sample rate"
  else
    Except.ok ()

/-- `max_len = all_results.iter().map(|v| v.len()).max().unwrap_or(0)` —
the merged row count used by every merger. -/
def maxLen {β : Type} (all : List (List β)) : ℕ :=
  ((all.map List.length).max?).getD 0

namespace JitterShimmer

/-! From `process_features/src/modules/jitter_shimmer.rs`. -/

/-- `JitterShimmerResult` (lines 160-169). -/
structure JitterShimmerResult where
  time_sec : ℝ
  f0_hz : Option ℝ
  jitter_local : Option ℝ
  jitter_ppq5 : Option ℝ
  shimmer_local : Option ℝ
  shimmer_apq5 : Option ℝ
  hnr_db : Option ℝ

/-- The Hann windowing of `analyze_window` (lines 178-186); iteration over
`iter().enumerate()` is rendered as a map over the index range.  (For a
1-sample window the Rust expression divides by `0.0`, giving NaN; here
division by zero gives `0` — no claim touches that case.) -/
noncomputable def hannWindowed (window : List ℝ) : List ℝ :=
  (List.range window.length).map (fun i =>
    window.getD i 0 *
      (0.5 * (1 - Real.cos (2 * Real.pi * (i : ℝ) / ((window.length - 1 : ℕ) : ℝ)))))

/-- `estimate_f0_autocorr` (lines 244-281). -/
noncomputable def estimate_f0_autocorr (signal : List ℝ) (sample_rate : ℕ)
    (min_f0 max_f0 : ℝ) : Option ℝ :=
  let min_lag : ℕ := (⌊(sample_rate : ℝ) / max_f0⌋).toNat
  let max_lag : ℕ := (⌊(sample_rate : ℝ) / min_f0⌋).toNat
  if signal.length ≤ max_lag ∨ max_lag ≤ min_lag then none
  else
    let upper := min max_lag (signal.length - 1)
    let best := (List.range' min_lag (upper + 1 - min_lag)).foldl
      (fun st lag =>
        let len := signal.length - lag
        let correlation := ((List.range len).map
          (fun i => signal.getD i 0 * signal.getD (i + lag) 0)).sum
        let norm1 := ((List.range len).map
          (fun i => signal.getD i 0 * signal.getD i 0)).sum
        let norm2 := ((List.range len).map
          (fun i => signal.getD (i + lag) 0 * signal.getD (i + lag) 0)).sum
        if 0 < norm1 ∧ 0 < norm2 then
          let normalized_corr := correlation / Real.sqrt (norm1 * norm2)
          if st.1 < normalized_corr then (normalized_corr, lag) else st
        else st)
      ((0 : ℝ), (0 : ℕ))
    if 0.3 < best.1 ∧ 0 < best.2 then
      some ((sample_rate : ℝ) / (best.2 : ℝ))
    else none

/-- The period-slicing `while` loop of `extract_periods` (lines 291-296);
the `0 < plen` conjunct is established before the loop by the caller's
`period_len == 0` early return and makes the recursion well founded. -/
noncomputable def extractPeriodsGo (signal : List ℝ) (plen : ℕ) (start : ℕ) :
    List (List ℝ) :=
  if _h : 0 < plen ∧ start + plen < signal.length then
    ((signal.drop start).take plen) :: extractPeriodsGo signal plen (start + plen)
  else []
termination_by signal.length - start
decreasing_by omega

/-- `extract_periods` (lines 283-299).  The Rust function also receives the
sample rate but never reads it. -/
noncomputable def extract_periods (signal : List ℝ) (period_samples : ℝ) :
    List (List ℝ) :=
  let period_len := (⌊period_samples⌋).toNat
  if period_len = 0 ∨ signal.length ≤ period_len then []
  else extractPeriodsGo signal period_len 0

/-- `calculate_amplitude` (lines 301-303): peak absolute amplitude. -/
noncomputable def calculate_amplitude (period : List ℝ) : ℝ :=
  (period.map (fun x => |x|)).foldl max 0

/-- `calculate_jitter_local` (lines 305-327). -/
noncomputable def calculate_jitter_local (periods : List (List ℝ))
    (sample_rate : ℕ) : Option ℝ :=
  if periods.length < 2 then none
  else
    let period_durations := periods.map (fun p => (p.length : ℝ) / (sample_rate : ℝ))
    let abs_diffs := (List.range (period_durations.length - 1)).map
      (fun i => |period_durations.getD (i + 1) 0 - period_durations.getD i 0|)
    let mean_abs_diff := abs_diffs.sum / (abs_diffs.length : ℝ)
    let mean_period := period_durations.sum / (period_durations.length : ℝ)
    if 0 < mean_period then some (mean_abs_diff / mean_period * 100) else none

/-- `calculate_jitter_ppq5` (lines 329-353). -/
noncomputable def calculate_jitter_ppq5 (periods : List (List ℝ))
    (sample_rate : ℕ) : Option ℝ :=
  if periods.length < 5 then none
  else
    let d := periods.map (fun p => (p.length : ℝ) / (sample_rate : ℝ))
    let ppq5_values := (List.range' 2 (d.length - 2 - 2)).map (fun i =>
      |d.getD i 0 - (d.getD (i - 2) 0 + d.getD (i - 1) 0 + d.getD i 0 +
        d.getD (i + 1) 0 + d.getD (i + 2) 0) / 5|)
    let mean_ppq5 := ppq5_values.sum / (ppq5_values.length : ℝ)
    let mean_period := d.sum / (d.length : ℝ)
    if 0 < mean_period then some (mean_ppq5 / mean_period * 100) else none

/-- `calculate_shimmer_local` (lines 355-373). -/
noncomputable def calculate_shimmer_local (amplitudes : List ℝ) : Option ℝ :=
  if amplitudes.length < 2 then none
  else
    let abs_diffs := (List.range (amplitudes.length - 1)).map
      (fun i => |amplitudes.getD (i + 1) 0 - amplitudes.getD i 0|)
    let mean_abs_diff := abs_diffs.sum / (abs_diffs.length : ℝ)
    let mean_amplitude := amplitudes.sum / (amplitudes.length : ℝ)
    if 0 < mean_amplitude then some (mean_abs_diff / mean_amplitude * 100) else none

/-- `calculate_shimmer_apq5` (lines 375-395). -/
noncomputable def calculate_shimmer_apq5 (amplitudes : List ℝ) : Option ℝ :=
  if amplitudes.length < 5 then none
  else
    let a := amplitudes
    let apq5_values := (List.range' 2 (a.length - 2 - 2)).map (fun i =>
      |a.getD i 0 - (a.getD (i - 2) 0 + a.getD (i - 1) 0 + a.getD i 0 +
        a.getD (i + 1) 0 + a.getD (i + 2) 0) / 5|)
    let mean_apq5 := apq5_values.sum / (apq5_values.length : ℝ)
    let mean_amplitude := a.sum / (a.length : ℝ)
    if 0 < mean_amplitude then some (mean_apq5 / mean_amplitude * 100) else none

/-- `calculate_hnr` (lines 397-436).  The running `total_power` of the Rust
loop is accumulated but never read, so it is not modelled; `log10` is
`Real.logb 10`. -/
noncomputable def calculate_hnr (signal : List ℝ) (f0 : ℝ) (sample_rate : ℕ) :
    Option ℝ :=
  if f0 ≤ 0 then none
  else
    let period_samples := (sample_rate : ℝ) / f0
    let num_periods := (⌊(signal.length : ℝ) / period_samples⌋).toNat
    if num_periods < 2 then none
    else
      let period_len := (⌊period_samples⌋).toNat
      let hn := (List.range (signal.length - period_len)).foldl
        (fun st i =>
          let current := signal.getD i 0
          let delayed := signal.getD (i + period_len) 0
          let correlation := current * delayed
          if 0 < correlation then (st.1 + correlation, st.2)
          else (st.1, st.2 + |correlation|))
        ((0 : ℝ), (0 : ℝ))
      if 0 < hn.2 ∧ 0 < hn.1 then some (10 * Real.logb 10 (hn.1 / hn.2))
      else if 0 < hn.1 then some 40
      else some 0

/-- `analyze_window` (lines 171-242). -/
noncomputable def analyze_window (window : List ℝ) (sample_rate : ℕ)
    (time_sec : ℝ) (min_f0 max_f0 : ℝ) : JitterShimmerResult :=
  let windowed := hannWindowed window
  match estimate_f0_autocorr windowed sample_rate min_f0 max_f0 with
  | none => ⟨time_sec, none, none, none, none, none, none⟩
  | some f0 =>
    let period_samples := (sample_rate : ℝ) / f0
    let periods := extract_periods windowed period_samples
    if periods.length < 5 then
      ⟨time_sec, some f0, none, none, none, none, none⟩
    else
      let amplitudes := periods.map calculate_amplitude
      ⟨time_sec, some f0,
        calculate_jitter_local periods sample_rate,
        calculate_jitter_ppq5 periods sample_rate,
        calculate_shimmer_local amplitudes,
        calculate_shimmer_apq5 amplitudes,
        calculate_hnr windowed f0 sample_rate⟩

/-- `window_len = (0.050 * samplerate as f64) as usize` (line 22). -/
def window_len (sample_rate : ℕ) : ℕ := sample_rate / 20

/-- `hop_len = (0.010 * samplerate as f64) as usize` (line 23). -/
def hop_len (sample_rate : ℕ) : ℕ := sample_rate / 100

/-- `(0..samples.len()).step_by(hop_len).take_while(|&i| i + window_len <=
samples.len())` (lines 99-102). -/
def window_indices (len wl hop : ℕ) : List ℕ :=
  (stepBy len hop).takeWhile (fun i => i + wl ≤ len)

/-- One channel's result sequence (lines 75-121): a silent channel — no
sample of absolute value above `1e-6` — is skipped with an empty result
vector, otherwise each analysis window is mapped (in parallel, collected
in index order) through `analyze_window`. -/
noncomputable def channelResults (sample_rate : ℕ) (samples : List ℝ)
    (min_f0 max_f0 : ℝ) : List JitterShimmerResult :=
  if samples.any (fun v => decide ((1 : ℝ) / 1000000 < |v|)) then
    (window_indices samples.length (window_len sample_rate) (hop_len sample_rate)).map
      (fun start =>
        analyze_window ((samples.drop start).take (window_len sample_rate))
          sample_rate ((start : ℝ) / (sample_rate : ℝ)) min_f0 max_f0)
  else []

/-- The six formatted value cells of a channel that has an entry at a row
(lines 139-144). -/
noncomputable def cellsOfResult (r : JitterShimmerResult) : List Cell :=
  [cellOfOpt r.f0_hz, cellOfOpt r.jitter_local, cellOfOpt r.jitter_ppq5,
   cellOfOpt r.shimmer_local, cellOfOpt r.shimmer_apq5, cellOfOpt r.hnr_db]

/-- A channel's six cells at merged row `i` (lines 137-150): the entry's
cells if the channel has one, six empty strings otherwise. -/
noncomputable def chanCells (chan : List JitterShimmerResult) (i : ℕ) : List Cell :=
  match chan[i]? with
  | some r => cellsOfResult r
  | none => List.replicate 6 Cell.blank

/-- Merged row `i` (lines 128-151): the time of the first channel with an
entry at `i`, then each channel's six cells. -/
noncomputable def mergedRow (all_results : List (List JitterShimmerResult))
    (i : ℕ) : List Cell :=
  cellOfOpt (all_results.findSome? (fun chan => (chan[i]?).map (·.time_sec))) ::
    all_results.flatMap (fun chan => chanCells chan i)

/-- The merged table (lines 127-152): one row per position below the
longest channel's length. -/
noncomputable def mergedRows (all_results : List (List JitterShimmerResult)) :
    List (List Cell) :=
  (List.range (maxLen all_results)).map (mergedRow all_results)

end JitterShimmer

/-! ## Frame iteration

`formant_analysis.rs` lines 196-210 step a frame start through a chunk:

    let mut frame_start = 0;
    while frame_start + frame_len <= chunk.len() { ...; frame_start += hop_len; }

The guard `fs + frame ≤ len` is the strict bound `fs < len + 1 - frame`,
so the loop is a stride loop like the chunk planner's. -/

/-- A fuel-indexed `while s < bound { push(s); s += step }` loop. -/
def strideLoopFuel (step bound : ℕ) : ℕ → ℕ → Option (List ℕ)
  | 0, s => if s < bound then none else some []
  | fuel + 1, s =>
    if s < bound then (strideLoopFuel step bound fuel (s + step)).map (s :: ·)
    else some []

/-- The frame starts of one chunk: the `while frame_start + frame_len <=
chunk.len()` loop, run with (sufficient, see `frame_starts_eq`) fuel
`len + 1`. -/
def frame_starts (frame hop len : ℕ) : List ℕ :=
  (strideLoopFuel hop (len + 1 - frame) (len + 1) 0).getD []

namespace SpectralFeatures

/-! From `process_features/src/modules/spectral_features.rs`. -/

/-- `frame_len = (0.025 * samplerate as f64) as usize` (line 22). -/
def frame_len (sample_rate : ℕ) : ℕ := sample_rate / 40

/-- `fft_size = frame_len.next_power_of_two()` (line 23). -/
def fft_size (sample_rate : ℕ) : ℕ := Nat.nextPowerOfTwo (frame_len sample_rate)

/-- `apply_hamming_window` (lines 121-127), applied to the whole
zero-padded FFT buffer. -/
noncomputable def hammingWindowed (xs : List ℂ) : List ℂ :=
  (List.range xs.length).map (fun i =>
    xs.getD i 0 *
      Complex.ofReal (0.54 - 0.46 *
        Real.cos (2 * Real.pi * (i : ℝ) / ((xs.length - 1 : ℕ) : ℝ))))

/-- Bin `k` of the forward discrete Fourier transform the `rustfft`
collaborator computes (line 90). -/
noncomputable def dft (xs : List ℂ) (k : ℕ) : ℂ :=
  ((List.range xs.length).map (fun n =>
    xs.getD n 0 *
      Complex.exp (-(2 * Real.pi * Complex.I * (k : ℝ) * (n : ℝ) / (xs.length : ℝ))))).sum

/-- `magnitude_spectrum` (lines 93-96): norms of the first half of the
bins. -/
noncomputable def magnitudeSpectrum (xs : List ℂ) : List ℝ :=
  (List.range (xs.length / 2)).map (fun k => Complex.abs (dft xs k))

/-- `calculate_spectral_centroid` (lines 129-144). -/
noncomputable def calculate_spectral_centroid (ms : List ℝ) (sample_rate : ℕ) : ℝ :=
  let weighted_sum := ((List.range ms.length).map (fun (i : ℕ) =>
    (i : ℝ) * (sample_rate : ℝ) / (2 * (ms.length : ℝ)) * ms.getD i 0)).sum
  let magnitude_sum := ms.sum
  if 0 < magnitude_sum then weighted_sum / magnitude_sum else 0

/-- The accumulating early-return loop of `calculate_spectral_rolloff`
(lines 150-156). -/
noncomputable def rolloffGo (ms : List ℝ) (sample_rate : ℕ) (threshold : ℝ)
    (i : ℕ) (cum : ℝ) : ℝ :=
  if _h : i < ms.length then
    let cum2 := cum + ms.getD i 0 * ms.getD i 0
    if threshold ≤ cum2 then (i : ℝ) * (sample_rate : ℝ) / (2 * (ms.length : ℝ))
    else rolloffGo ms sample_rate threshold (i + 1) cum2
  else (sample_rate : ℝ) / 2
termination_by ms.length - i
decreasing_by omega

/-- `calculate_spectral_rolloff` (lines 146-159). -/
noncomputable def calculate_spectral_rolloff (ms : List ℝ) (sample_rate : ℕ)
    (rolloff_percent : ℝ) : ℝ :=
  let total_energy := (ms.map (fun x => x * x)).sum
  rolloffGo ms sample_rate (total_energy * rolloff_percent) 0 0

/-- `calculate_spectral_bandwidth` (lines 161-177). -/
noncomputable def calculate_spectral_bandwidth (ms : List ℝ) (sample_rate : ℕ)
    (centroid : ℝ) : ℝ :=
  let weighted_variance := ((List.range ms.length).map (fun (i : ℕ) =>
    let freq := (i : ℝ) * (sample_rate : ℝ) / (2 * (ms.length : ℝ))
    (freq - centroid) * (freq - centroid) * ms.getD i 0)).sum
  let magnitude_sum := ms.sum
  if 0 < magnitude_sum then Real.sqrt (weighted_variance / magnitude_sum) else 0

/-- `calculate_spectral_flatness` (lines 179-192). -/
noncomputable def calculate_spectral_flatness (ms : List ℝ) : ℝ :=
  let geometric_mean :=
    ((ms.filter (fun x => decide (0 < x))).map Real.log).sum / (ms.length : ℝ)
  let arithmetic_mean := ms.sum / (ms.length : ℝ)
  if 0 < arithmetic_mean then Real.exp geometric_mean / arithmetic_mean else 0

/-- `calculate_zero_crossing_rate` (lines 194-207). -/
noncomputable def calculate_zero_crossing_rate (frame : List ℝ) : ℝ :=
  if frame.length < 2 then 0
  else
    let crossings := (List.range (frame.length - 1)).countP (fun i =>
      decide (0 ≤ frame.getD (i + 1) 0) != decide (0 ≤ frame.getD i 0))
    (crossings : ℝ) / ((frame.length - 1 : ℕ) : ℝ)

/-- One channel's five cells at frame position `start` (lines 68-109):
five empty strings when the channel is exhausted, otherwise the five
spectral features of the (zero-padded, Hamming-windowed, Fourier
transformed) frame.  There is no silence check. -/
noncomputable def chanCellsAt (sample_rate : ℕ) (chan : List ℝ) (start : ℕ) :
    List Cell :=
  if chan.length ≤ start then List.replicate 5 Cell.blank
  else
    let e := min (start + frame_len sample_rate) chan.length
    let frame := (chan.drop start).take (e - start)
    let padded := (frame.map (fun x => (x : ℂ))) ++
      List.replicate (fft_size sample_rate - frame.length) 0
    let ms := magnitudeSpectrum (hammingWindowed padded)
    let centroid := calculate_spectral_centroid ms sample_rate
    [Cell.val centroid,
     Cell.val (calculate_spectral_rolloff ms sample_rate 0.85),
     Cell.val (calculate_spectral_bandwidth ms sample_rate centroid),
     Cell.val (calculate_spectral_flatness ms),
     Cell.val (calculate_zero_crossing_rate frame)]

/-- The rows `process` writes (lines 61-113): one per frame start below
the longest buffer, each carrying a time cell and five cells per
channel. -/
noncomputable def mergedRows (sample_rate : ℕ) (bufs : List (List ℝ)) :
    List (List Cell) :=
  (stepBy (maxLen bufs) (frame_len sample_rate)).map (fun (start : ℕ) =>
    Cell.val ((start : ℝ) / (sample_rate : ℝ)) ::
      bufs.flatMap (fun chan => chanCellsAt sample_rate chan start))

/-- The whole of `process` (lines 8-119) as the table it writes: open the
stream, demultiplex with `i % channels` (a panic for zero channels on a
nonempty stream), normalize by `i32::MAX`, then emit one row per frame
start.  A zero `frame_len` (sample rate below 40) makes Rust's
`step_by(0)` panic.  There is no zero-channel / zero-sample-rate check. -/
noncomputable def spectralProcess (channels sample_rate : ℕ) (raw : List ℤ) :
    Except String (List (List Cell)) :=
  (demux channels (raw.map (fun s => ((normalizeFeatureSample s : ℚ) : ℝ)))).bind
    (fun bufs =>
      if frame_len sample_rate = 0 then
        Except.error "panicked: step_by with a step of zero"
      else
        Except.ok (mergedRows sample_rate bufs))

end SpectralFeatures

namespace RmsEnergy

/-! From `process_volume/src/main.rs` (the repository's RMS/energy
feature; `process_features`' `modules/rms_energy.rs` is declared in its
`main.rs` but not part of the source tree). -/

/-- `frame_len = (0.025 * samplerate as f64) as usize` (line 32). -/
def frame_len (sample_rate : ℕ) : ℕ := sample_rate / 40

/-- One channel's two cells at frame position `start` (lines 71-87): two
empty strings when the channel is exhausted, otherwise the RMS and the
energy of the frame.  There is no silence check. -/
noncomputable def chanCellsAt (sample_rate : ℕ) (chan : List ℝ) (start : ℕ) :
    List Cell :=
  if chan.length ≤ start then [Cell.blank, Cell.blank]
  else
    let e := min (start + frame_len sample_rate) chan.length
    let frame := (chan.drop start).take (e - start)
    let sumsq := (frame.map (fun s => s * s)).sum
    [Cell.val (Real.sqrt (sumsq / (frame.length : ℝ))), Cell.val sumsq]

/-- The rows `main` writes (lines 64-89). -/
noncomputable def mergedRows (sample_rate : ℕ) (bufs : List (List ℝ)) :
    List (List Cell) :=
  (stepBy (maxLen bufs) (frame_len sample_rate)).map (fun (start : ℕ) =>
    Cell.val ((start : ℝ) / (sample_rate : ℝ)) ::
      bufs.flatMap (fun chan => chanCellsAt sample_rate chan start))

end RmsEnergy

namespace Pitch

/-! From `process_audio/src/main.rs` (the repository's pitch feature;
`process_features`' `modules/pitch.rs` is declared in its `main.rs` but
not part of the source tree).  The per-chunk estimator is the external
`pyin` crate, modelled as a kernel parameter from chunk slices to
`(local time, optional f0)` pairs (NaN pitch already mapped to `none`,
lines 163-171). -/

/-- `frame_len = (0.025 * samplerate as f64) as usize` (line 35). -/
def frame_len (sample_rate : ℕ) : ℕ := sample_rate / 40

/-- `chunk_samples = (5.0 * samplerate as f64) as usize` (lines 39-40). -/
def chunk_samples (sample_rate : ℕ) : ℕ := 5 * sample_rate

/-- `overlap_samples = frame_len` (line 41). -/
def overlap_samples (sample_rate : ℕ) : ℕ := frame_len sample_rate

/-- One chunk's results (lines 147-175): the kernel's local times are
shifted by `start / samplerate`. -/
noncomputable def chunkResults (kernel : List ℝ → List (ℝ × Option ℝ))
    (sample_rate : ℕ) (samples : List ℝ) (se : ℕ × ℕ) : List (ℝ × Option ℝ) :=
  (kernel ((samples.drop se.1).take (se.2 - se.1))).map
    (fun p => (p.1 + (se.1 : ℝ) / (sample_rate : ℝ), p.2))

/-- One channel's result sequence (lines 88-183): a silent channel is
skipped with an empty vector; otherwise the chunks of the plan are
processed (in parallel, collected in chunk order) and concatenated.
The planner's fuel suffices whenever the sample rate is positive
(`chunkLoopFuel_eq_chunkSpec`); for a zero sample rate the Rust loop
never terminates and `chunk_indices` is `none`. -/
noncomputable def channelResults (kernel : List ℝ → List (ℝ × Option ℝ))
    (sample_rate : ℕ) (samples : List ℝ) : List (ℝ × Option ℝ) :=
  if samples.any (fun v => decide ((1 : ℝ) / 1000000 < |v|)) then
    (((chunk_indices (chunk_samples sample_rate) (overlap_samples sample_rate)
        samples.length).getD []).map
      (chunkResults kernel sample_rate samples)).flatten
  else []

/-- A channel's single cell at merged row `i` (lines 198-204): the
formatted pitch (empty for an unvoiced frame) if the channel has an
entry, else the literal string `"no data"`. -/
noncomputable def chanCells (chan : List (ℝ × Option ℝ)) (i : ℕ) : List Cell :=
  match chan[i]? with
  | some p => [cellOfOpt p.2]
  | none => [Cell.noData]

/-- Merged row `i` (lines 191-205). -/
noncomputable def mergedRow (all : List (List (ℝ × Option ℝ))) (i : ℕ) :
    List Cell :=
  cellOfOpt (all.findSome? (fun chan => (chan[i]?).map (·.1))) ::
    all.flatMap (fun chan => chanCells chan i)

/-- The merged table (lines 190-206). -/
noncomputable def mergedRows (all : List (List (ℝ × Option ℝ))) :
    List (List Cell) :=
  (List.range (maxLen all)).map (mergedRow all)

/-- Modelled from the spec: the pitch kernel itself — the repository
module `process_features/src/modules/pitch.rs` is declared in
`process_features/src/main.rs` but missing from the tree, and
`process_audio`'s kernel is the external `pyin` crate.  Per §4.3 the
kernel "returns one (time, optional Hz) per analysis frame inside the
chunk", frames advancing by a hop, and per §4.4 a frame's local time is
its start offset over the sample rate; the estimate itself is left as a
parameter. -/
noncomputable def pitchKernelModelled (est : List ℝ → Option ℝ)
    (sample_rate frame hop : ℕ) (chunk : List ℝ) : List (ℝ × Option ℝ) :=
  (frame_starts frame hop chunk.length).map (fun (fs : ℕ) =>
    ((fs : ℝ) / (sample_rate : ℝ), est ((chunk.drop fs).take frame)))

end Pitch

namespace FormantAnalysis

/-! From `process_features/src/modules/formant_analysis.rs`. -/

/-- The pre-emphasis filter of `find_formants` (lines 15-20). -/
def preEmphasized (samples : List ℚ) : List ℚ :=
  (List.range samples.length).map (fun i =>
    if i = 0 then samples.getD 0 0
    else samples.getD i 0 - 97 / 100 * samples.getD (i - 1) 0)

/-- Autocorrelation at `lag` (lines 26-34), with the in-loop bounds
guard. -/
def autocorrAt (pre : List ℚ) (window_size lag : ℕ) : ℚ :=
  ((List.range (window_size - lag)).map (fun i =>
    if i + lag < pre.length then pre.getD i 0 * pre.getD (i + lag) 0 else 0)).sum

/-- `find_formants` (lines 10-54): below 512 samples the kernel returns
no formants at all; otherwise autocorrelation peaks in the plausible
band are collected, sorted ascending and truncated to 4.  (For sample
rates below 3000 the Rust peak loop starts at `i = 0` and
`autocorr[i - 1]` panics on index underflow; here `0 - 1 = 0`.) -/
def find_formants (samples : List ℚ) (sample_rate : ℕ) : List ℚ :=
  if samples.length < 512 then []
  else
    let pre := preEmphasized samples
    let window_size := min 1024 pre.length
    let aclen := window_size / 2
    let ac := fun lag => autocorrAt pre window_size lag
    let min_formant_samples := sample_rate / 3000
    let max_formant_samples := sample_rate / 200
    let upper := min max_formant_samples (aclen - 1)
    let formants := (List.range' min_formant_samples
        (upper - min_formant_samples)).filterMap (fun i =>
      if ac (i - 1) < ac i ∧ ac (i + 1) < ac i ∧ 1 / 10 * ac 0 < ac i then
        let formant_freq := (sample_rate : ℚ) / (i : ℚ)
        if 200 ≤ formant_freq ∧ formant_freq ≤ 3000 then some formant_freq
        else none
      else none)
    (formants.mergeSort (fun a b => decide (a ≤ b))).take 4

/-- `frame_len = (0.025 * samplerate as f64) as usize` (line 70). -/
def frame_len (sample_rate : ℕ) : ℕ := sample_rate / 40

/-- `hop_len = (0.010 * samplerate as f64) as usize` (line 71). -/
def hop_len (sample_rate : ℕ) : ℕ := sample_rate / 100

/-- `chunk_samples = (5.0 * samplerate as f64) as usize` (lines 74-75). -/
def chunk_samples (sample_rate : ℕ) : ℕ := 5 * sample_rate

/-- `overlap_samples = frame_len` (line 76). -/
def overlap_samples (sample_rate : ℕ) : ℕ := frame_len sample_rate

/-- One chunk's frame results (lines 189-214): each frame fully inside
the chunk yields `(global time, formants)` with `global time = (chunk
start + frame start) / samplerate`. -/
def chunkResults (sample_rate frame hop : ℕ) (samples : List ℚ) (se : ℕ × ℕ) :
    List (ℚ × List ℚ) :=
  let chunk := (samples.drop se.1).take (se.2 - se.1)
  (frame_starts frame hop chunk.length).map (fun fs =>
    (((se.1 + fs : ℕ) : ℚ) / (sample_rate : ℚ),
      find_formants ((chunk.drop fs).take frame) sample_rate))

/-- One channel's result sequence (lines 129-222): a silent channel is
skipped with an empty vector; otherwise the chunk plan's chunks are
processed (in parallel, collected in chunk order) and concatenated
(line 217). -/
def channelResults (sample_rate : ℕ) (samples : List ℚ) : List (ℚ × List ℚ) :=
  if samples.any (fun v => decide ((1 : ℚ) / 1000000 < |v|)) then
    (((chunk_indices (chunk_samples sample_rate) (overlap_samples sample_rate)
        samples.length).getD []).map
      (chunkResults sample_rate (frame_len sample_rate) (hop_len sample_rate)
        samples)).flatten
  else []

/-- A channel's four cells at merged row `i` (lines 240-255): formatted
formants with empty strings for the missing trailing slots, or four
empty strings when the channel has no entry. -/
noncomputable def chanCells (chan : List (ℚ × List ℚ)) (i : ℕ) : List Cell :=
  match chan[i]? with
  | some p => (List.range 4).map (fun f_idx =>
      let fv : Option ℚ := p.2[f_idx]?
      match fv with
      | some v => Cell.val (v : ℝ)
      | none => Cell.blank)
  | none => List.replicate 4 Cell.blank

/-- Merged row `i` (lines 230-256). -/
noncomputable def mergedRow (all : List (List (ℚ × List ℚ))) (i : ℕ) :
    List Cell :=
  (match all.findSome? (fun chan => (chan[i]?).map (·.1)) with
   | some t => Cell.val (t : ℝ)
   | none => Cell.blank) ::
    all.flatMap (fun chan => chanCells chan i)

/-- The merged table (lines 229-258). -/
noncomputable def mergedRows (all : List (List (ℚ × List ℚ))) :
    List (List Cell) :=
  (List.range (maxLen all)).map (mergedRow all)

end FormantAnalysis

/-! ## Loop and demultiplexer lemmas -/

lemma chunksFrom_zero (L c : ℕ) : chunksFrom L c 0 = numChunks L c := by
  simp [chunksFrom, numChunks]

lemma chunksFrom_eq_zero (L c m : ℕ) (hc : 0 < c) (h : L ≤ m * c) :
    chunksFrom L c m = 0 := by
  unfold chunksFrom
  have h1 : L - m * c = 0 := Nat.sub_eq_zero_of_le h
  rw [h1]
  exact Nat.div_eq_of_lt (by omega)

lemma chunksFrom_pos (L c m : ℕ) (hc : 0 < c) (h : m * c < L) :
    chunksFrom L c m = chunksFrom L c (m + 1) + 1 := by
  unfold chunksFrom
  have hsub : L - (m + 1) * c = L - m * c - c := by
    rw [Nat.add_mul, one_mul, Nat.sub_sub]
  rw [hsub]
  set a := L - m * c with ha
  have ha1 : 1 ≤ a := by omega
  rcases le_or_lt a c with hac | hac
  · have h0 : a - c = 0 := by omega
    rw [h0]
    have hz : (0 + c - 1) / c = 0 := Nat.div_eq_of_lt (by omega)
    rw [hz]
    exact Nat.div_eq_of_lt_le (by omega) (by omega)
  · have h1 : a - c + c - 1 = a - 1 := by omega
    have h2 : a + c - 1 = a - 1 + c := by omega
    rw [h1, h2, Nat.add_div_right _ hc]

lemma chunkLoopFuel_eq (c o L : ℕ) (hc : 0 < c) :
    ∀ fuel m, chunksFrom L c m ≤ fuel →
      chunkLoopFuel c o L fuel (m * c) =
        some ((List.range' m (chunksFrom L c m)).map
          (fun k => (k * c, min (k * c + c + o) L))) := by
  intro fuel
  induction fuel with
  | zero =>
    intro m hm
    have h0 : chunksFrom L c m = 0 := Nat.le_zero.mp hm
    have hL : ¬ m * c < L := by
      intro hlt
      rw [chunksFrom_pos L c m hc hlt] at h0
      omega
    simp [chunkLoopFuel, hL, h0]
  | succ fuel ih =>
    intro m hm
    by_cases hL : m * c < L
    · have hstep : chunksFrom L c m = chunksFrom L c (m + 1) + 1 :=
        chunksFrom_pos L c m hc hL
      have hrec := ih (m + 1) (by omega)
      have harg : m * c + c = (m + 1) * c := by ring
      rw [chunkLoopFuel, if_pos hL, harg, hrec, hstep, List.range'_succ]
      simp [harg]
    · have h0 : chunksFrom L c m = 0 := chunksFrom_eq_zero L c m hc (by omega)
      simp [chunkLoopFuel, hL, h0]

lemma numChunks_le (L c : ℕ) (hc : 0 < c) : numChunks L c ≤ L := by
  unfold numChunks
  have h : (L + c - 1) / c < L + 1 := by
    rw [Nat.div_lt_iff_lt_mul hc]
    have hLc : L ≤ L * c := Nat.le_mul_of_pos_right L hc
    have : (L + 1) * c = L * c + c := by ring
    omega
  omega

/-- With positive `chunk_samples`, fuel `L` completes the planner loop
and yields exactly the spec's chunk list. -/
lemma chunkLoopFuel_eq_chunkSpec (c o L : ℕ) (hc : 0 < c) :
    chunk_indices c o L = some (chunkSpec c o L) := by
  have h := chunkLoopFuel_eq c o L hc L 0
    (by rw [chunksFrom_zero]; exact numChunks_le L c hc)
  simp only [Nat.zero_mul] at h
  rw [chunk_indices, h, chunksFrom_zero, chunkSpec, List.range_eq_range']

lemma numChunks_iff (L c k : ℕ) (hc : 0 < c) :
    k < numChunks L c ↔ k * c < L := by
  unfold numChunks
  constructor
  · intro h
    have h1 : k + 1 ≤ (L + c - 1) / c := h
    have h2 : (k + 1) * c ≤ L + c - 1 := (Nat.le_div_iff_mul_le hc).mp h1
    have h3 : (k + 1) * c = k * c + c := by ring
    omega
  · intro h
    have h2 : (k + 1) * c ≤ L + c - 1 := by
      have h3 : (k + 1) * c = k * c + c := by ring
      omega
    exact (Nat.le_div_iff_mul_le hc).mpr h2

lemma chanOf_append {α : Type} (C : ℕ) (j : ℕ) :
    ∀ (s t : List α) (i : ℕ),
      chanOf C i (s ++ t) j = chanOf C i s j ++ chanOf C (i + s.length) t j := by
  intro s
  induction s with
  | nil => intro t i; simp [chanOf]
  | cons x rest ih =>
    intro t i
    show (if i % C = j then [x] else []) ++ chanOf C (i + 1) (rest ++ t) j =
      ((if i % C = j then [x] else []) ++ chanOf C (i + 1) rest j) ++
        chanOf C (i + (rest.length + 1)) t j
    rw [ih t (i + 1), List.append_assoc,
      show i + 1 + rest.length = i + (rest.length + 1) by omega]

lemma demuxGo_getElem? {α : Type} (C : ℕ) (j : ℕ) :
    ∀ (s : List α) (bufs : List (List α)) (i : ℕ) (b : List α),
      bufs[j]? = some b →
      (demuxGo C bufs i s)[j]? = some (b ++ chanOf C i s j) := by
  intro s
  induction s with
  | nil => intro bufs i b hb; simp [demuxGo, chanOf, hb]
  | cons x rest ih =>
    intro bufs i b hb
    have hj : j < bufs.length := by
      by_contra h
      rw [List.getElem?_eq_none (by omega)] at hb
      exact Option.noConfusion hb
    rw [demuxGo, chanOf]
    by_cases hc : i % C = j
    · have hset : (bufs.set (i % C) ((bufs.getD (i % C) []) ++ [x]))[j]? =
          some (b ++ [x]) := by
        rw [List.getElem?_set]
        have hgd : bufs.getD (i % C) [] = b := by
          rw [hc, List.getD_eq_getElem?_getD, hb]
          rfl
        have hbj : bufs[j] = b := by
          have h2 := hb
          rwa [List.getElem?_eq_getElem hj, Option.some_inj] at h2
        simp [hc, hj, hgd, hbj]
      rw [ih _ (i + 1) (b ++ [x]) hset]
      simp [hc, List.append_assoc]
    · have hset : (bufs.set (i % C) ((bufs.getD (i % C) []) ++ [x]))[j]? = some b := by
        rw [List.getElem?_set, if_neg hc, hb]
      rw [ih _ (i + 1) b hset]
      simp [hc]

lemma demuxGo_length {α : Type} (C : ℕ) :
    ∀ (s : List α) (bufs : List (List α)) (i : ℕ),
      (demuxGo C bufs i s).length = bufs.length := by
  intro s
  induction s with
  | nil => intro bufs i; simp [demuxGo]
  | cons x rest ih => intro bufs i; rw [demuxGo, ih, List.length_set]

/-- The demultiplexer assigns sample `i` to channel `i mod C`: buffer `j`
holds exactly the samples whose index is congruent to `j`. -/
lemma demux_getElem? {α : Type} (C : ℕ) (samples : List α) (j : ℕ)
    (hC : 0 < C) (hj : j < C) :
    ∃ bufs, demux C samples = Except.ok bufs ∧
      bufs[j]? = some (chanOf C 0 samples j) ∧ bufs.length = C := by
  refine ⟨demuxGo C (List.replicate C []) 0 samples, ?_, ?_, ?_⟩
  · rw [demux, if_neg (fun h => absurd h.1 (by omega))]
  · have hrep : (List.replicate C ([] : List α))[j]? = some [] := by
      simp [List.getElem?_replicate, hj]
    simpa using demuxGo_getElem? C j samples (List.replicate C []) 0 [] hrep
  · rw [demuxGo_length, List.length_replicate]

lemma chanLen_succ (C N j : ℕ) (hC : 0 < C) (hj : j < C) :
    chanLen C (N + 1) j = chanLen C N j + if N % C = j then 1 else 0 := by
  obtain ⟨q, r, hr, hN⟩ : ∃ q r, r < C ∧ N = C * q + r :=
    ⟨N / C, N % C, Nat.mod_lt _ hC, (Nat.div_add_mod N C).symm⟩
  have hdiv : N / C = q := by
    rw [hN, Nat.mul_add_div hC, Nat.div_eq_of_lt hr]
    omega
  have hmod : N % C = r := by
    rw [hN, Nat.mul_add_mod, Nat.mod_eq_of_lt hr]
  rcases Nat.lt_or_ge (r + 1) C with hrc | hrc
  · have hdiv1 : (N + 1) / C = q := by
      rw [hN, show C * q + r + 1 = C * q + (r + 1) by omega,
        Nat.mul_add_div hC, Nat.div_eq_of_lt hrc]
      omega
    have hmod1 : (N + 1) % C = r + 1 := by
      rw [hN, show C * q + r + 1 = C * q + (r + 1) by omega,
        Nat.mul_add_mod, Nat.mod_eq_of_lt hrc]
    rw [chanLen, chanLen, hdiv, hmod, hdiv1, hmod1]
    split_ifs <;> omega
  · have hr1 : r + 1 = C := by omega
    have hdiv1 : (N + 1) / C = q + 1 := by
      rw [hN, show C * q + r + 1 = C * (q + 1) by rw [Nat.mul_succ]; omega,
        Nat.mul_div_cancel_left _ hC]
    have hmod1 : (N + 1) % C = 0 := by
      rw [hN, show C * q + r + 1 = C * (q + 1) + 0 by rw [Nat.mul_succ]; omega,
        Nat.mul_add_mod, Nat.zero_mod]
    rw [chanLen, chanLen, hdiv, hmod, hdiv1, hmod1]
    split_ifs <;> omega

lemma chanOf_length {α : Type} (C : ℕ) (j : ℕ) (hC : 0 < C) (hj : j < C)
    (s : List α) : (chanOf C 0 s j).length = chanLen C s.length j := by
  induction s using List.reverseRecOn with
  | nil => simp [chanOf, chanLen]
  | append_singleton s x ih =>
    rw [chanOf_append, List.length_append, List.length_append]
    simp only [List.length_singleton]
    rw [ih, chanLen_succ C s.length j hC hj]
    congr 1
    simp [chanOf]
    split_ifs <;> simp

lemma strideLoopFuel_eq (step bound : ℕ) (hs : 0 < step) :
    ∀ fuel m, chunksFrom bound step m ≤ fuel →
      strideLoopFuel step bound fuel (m * step) =
        some ((List.range' m (chunksFrom bound step m)).map (· * step)) := by
  intro fuel
  induction fuel with
  | zero =>
    intro m hm
    have h0 : chunksFrom bound step m = 0 := Nat.le_zero.mp hm
    have hL : ¬ m * step < bound := by
      intro hlt
      rw [chunksFrom_pos bound step m hs hlt] at h0
      omega
    simp [strideLoopFuel, hL, h0]
  | succ fuel ih =>
    intro m hm
    by_cases hL : m * step < bound
    · have hstep : chunksFrom bound step m = chunksFrom bound step (m + 1) + 1 :=
        chunksFrom_pos bound step m hs hL
      have hrec := ih (m + 1) (by omega)
      have harg : m * step + step = (m + 1) * step := by ring
      rw [strideLoopFuel, if_pos hL, harg, hrec, hstep, List.range'_succ]
      simp
    · have h0 : chunksFrom bound step m = 0 :=
        chunksFrom_eq_zero bound step m hs (by omega)
      simp [strideLoopFuel, hL, h0]

lemma frame_starts_eq (frame hop len : ℕ) (hh : 0 < hop) :
    frame_starts frame hop len =
      (List.range (numChunks (len + 1 - frame) hop)).map (· * hop) := by
  have hfuel : chunksFrom (len + 1 - frame) hop 0 ≤ len + 1 := by
    rw [chunksFrom_zero]
    exact le_trans (numChunks_le _ _ hh) (by omega)
  have h := strideLoopFuel_eq hop (len + 1 - frame) hh (len + 1) 0 hfuel
  simp only [Nat.zero_mul] at h
  rw [frame_starts, h, chunksFrom_zero, List.range_eq_range']
  rfl

/-! ## Merger block structure -/

lemma flatMap_length_const {α β : Type} (f : α → List β) (n : ℕ)
    (hf : ∀ x, (f x).length = n) (l : List α) :
    (l.flatMap f).length = n * l.length := by
  induction l with
  | nil => simp
  | cons x rest ih =>
    rw [List.flatMap_cons, List.length_append, hf, ih, List.length_cons,
      Nat.mul_succ]
    ring

/-- In a concatenation of constant-arity blocks, the slice at block `j`
is the `j`-th block. -/
lemma flatMap_block {α β : Type} (f : α → List β) (n : ℕ)
    (hf : ∀ x, (f x).length = n) :
    ∀ (l : List α) (j : ℕ) (x : α), l[j]? = some x →
      ((l.flatMap f).drop (n * j)).take n = f x := by
  intro l
  induction l with
  | nil => intro j x h; simp at h
  | cons y rest ih =>
    intro j x h
    cases j with
    | zero =>
      rw [List.getElem?_cons_zero, Option.some_inj] at h
      subst h
      rw [List.flatMap_cons, Nat.mul_zero, List.drop_zero, ← hf y,
        List.take_left]
    | succ j =>
      rw [List.getElem?_cons_succ] at h
      rw [List.flatMap_cons,
        show n * (j + 1) = (f y).length + n * j by rw [hf y]; ring,
        List.drop_append]
      exact ih j x h

/-! ## Claim theorems -/

/-- C6: for every channel length `L` and `chunk_samples > 0` the planner
emits exactly the pairs `(k*c, min (k*c + c + o) L)` for `k = 0, 1, ...`,
stopping at the first `k` with `k*c ≥ L`; with `L = 0` it emits zero
chunks and the downstream kernel yields an empty result sequence. -/
theorem chunk_planner_spec (c o L : ℕ) (hc : 0 < c) :
    chunk_indices c o L = some (chunkSpec c o L) ∧
    (∀ k, (chunkSpec c o L)[k]? =
      if k * c < L then some (k * c, min (k * c + c + o) L) else none) ∧
    (L = 0 → chunk_indices c o L = some [] ∧
      ∀ sr frame hop samples,
        (((chunkSpec c o L).map
          (FormantAnalysis.chunkResults sr frame hop samples)).flatten = [])) := by
  have hspec := chunkLoopFuel_eq_chunkSpec c o L hc
  have hL0 : L = 0 → chunkSpec c o L = [] := by
    intro h0
    have : numChunks L c = 0 := by
      rw [h0]
      unfold numChunks
      exact Nat.div_eq_of_lt (by omega)
    simp [chunkSpec, this]
  refine ⟨hspec, ?_, ?_⟩
  · intro k
    rw [chunkSpec, List.getElem?_map]
    by_cases hk : k < numChunks L c
    · rw [List.getElem?_range hk, if_pos ((numChunks_iff L c k hc).mp hk)]
      rfl
    · rw [List.getElem?_eq_none (by simpa using hk),
        if_neg (fun h => hk ((numChunks_iff L c k hc).mpr h))]
      rfl
  · intro h0
    refine ⟨by rw [hspec, hL0 h0], ?_⟩
    intro sr frame hop samples
    rw [hL0 h0]
    rfl

/-- C6 witness: `L = 5`, `c = 2`, `o = 1` gives chunks
`(0,3), (2,5), (4,5)`. -/
theorem chunk_planner_spec_witness :
    chunk_indices 2 1 5 = some (chunkSpec 2 1 5) ∧
    chunkSpec 2 1 5 = [(0, 3), (2, 5), (4, 5)] :=
  ⟨(chunk_planner_spec 2 1 5 (by norm_num)).1, by decide⟩

/-- C7: with `chunk_samples = 0` and a nonempty channel (`L = 1`) the
planner's `while` loop never terminates — no amount of fuel completes
it — contradicting the spec's boundary requirement that the planner
terminate with an error or a single degenerate chunk. -/
theorem chunk_planner_zero_chunk_diverges :
    ∀ fuel, chunkLoopFuel 0 0 1 fuel 0 = none := by
  intro fuel
  induction fuel with
  | zero => simp [chunkLoopFuel]
  | succ n ih => simp [chunkLoopFuel, ih]

/-- C8 (amended): the demultiplexer assigns sample `i` to channel
`i mod C`; buffer `j` therefore has length `N/C + 1` when `j < N mod C`
and `N/C` otherwise (`⌈(N-j)/C⌉`), and all buffers have length `⌈N/C⌉`
exactly when `C` divides `N`. -/
theorem demux_lengths (C : ℕ) (samples : List ℚ) (j : ℕ)
    (hC : 0 < C) (hj : j < C) :
    ∃ bufs, demux C samples = Except.ok bufs ∧ bufs.length = C ∧
      bufs[j]? = some (chanOf C 0 samples j) ∧
      (chanOf C 0 samples j).length =
        samples.length / C + (if j < samples.length % C then 1 else 0) ∧
      (samples.length % C = 0 →
        (chanOf C 0 samples j).length = numChunks samples.length C) := by
  obtain ⟨bufs, h1, h2, h3⟩ := demux_getElem? C samples j hC hj
  have hlen := chanOf_length C j hC hj samples
  refine ⟨bufs, h1, h3, h2, by rw [hlen]; rfl, ?_⟩
  intro hdvd
  rw [hlen, chanLen, hdvd, if_neg (by omega)]
  unfold numChunks
  obtain ⟨q, hq⟩ : C ∣ samples.length := Nat.dvd_of_mod_eq_zero hdvd
  rw [hq, Nat.mul_div_cancel_left _ hC,
    show C * q + C - 1 = C * q + (C - 1) by omega,
    Nat.mul_add_div hC, Nat.div_eq_of_lt (by omega)]

/-- C8 witness: `C = 3`, five samples: buffer 1 gets samples 1 and 4,
so its length is `5/3 + 1 = 2`. -/
theorem demux_lengths_witness :
    ∃ bufs, demux 3 [(1 : ℚ), 2, 3, 4, 5] = Except.ok bufs ∧
      bufs.length = 3 ∧
      bufs[1]? = some (chanOf 3 0 [(1 : ℚ), 2, 3, 4, 5] 1) ∧
      (chanOf 3 0 [(1 : ℚ), 2, 3, 4, 5] 1).length =
        5 / 3 + (if 1 < 5 % 3 then 1 else 0) ∧
      (5 % 3 = 0 →
        (chanOf 3 0 [(1 : ℚ), 2, 3, 4, 5] 1).length = numChunks 5 3) := by
  have h := demux_lengths 3 [(1 : ℚ), 2, 3, 4, 5] 1 (by norm_num) (by norm_num)
  simpa using h

/-- C8 counterexample: 3 samples over 2 channels give buffers `[1, 3]`
and `[2]` — lengths 2 and 1, not `⌈3/2⌉ = 2` for both. -/
theorem demux_lengths_counterexample :
    demux 2 [(1 : ℚ), 2, 3] = Except.ok [[1, 3], [2]] ∧
    ¬ ∀ b ∈ [[(1 : ℚ), 3], [2]], b.length = numChunks 3 2 := by
  constructor
  · rfl
  · intro h
    have := h [2] (by simp)
    simp [numChunks] at this

/-- C3 (amended): only the HuBERT preprocessor divides by the bit-depth
maximum `2^(bits_per_sample - 1)`; the feature-extraction demultiplexers
divide every raw sample by the fixed constant `i32::MAX = 2^31 - 1`
regardless of source bit depth.  Both keep bounded samples inside
`[-1, 1]`. -/
theorem normalization_bounded (bits : ℕ) (s t : ℤ) (hb : 1 ≤ bits)
    (hs : |s| ≤ 2 ^ (bits - 1)) (ht : |t| ≤ 2 ^ 31 - 1) :
    |hubertNormalize bits s| ≤ 1 ∧ |normalizeFeatureSample t| ≤ 1 := by
  constructor
  · rw [hubertNormalize, abs_div, div_le_one (by positivity),
      show |(2 : ℚ) ^ (bits - 1)| = 2 ^ (bits - 1) by rw [abs_pow, abs_two]]
    calc |(s : ℚ)| = ((|s| : ℤ) : ℚ) := by push_cast; ring
    _ ≤ ((2 ^ (bits - 1) : ℤ) : ℚ) := by exact_mod_cast hs
    _ = 2 ^ (bits - 1) := by push_cast; ring
  · rw [normalizeFeatureSample, abs_div, div_le_one (by norm_num)]
    have h1 : |(t : ℚ)| = ((|t| : ℤ) : ℚ) := by push_cast; ring
    have h2 : ((|t| : ℤ) : ℚ) ≤ ((2 ^ 31 - 1 : ℤ) : ℚ) := by exact_mod_cast ht
    rw [h1]
    calc ((|t| : ℤ) : ℚ) ≤ ((2 ^ 31 - 1 : ℤ) : ℚ) := h2
    _ ≤ |(2147483647 : ℚ)| := by norm_num

/-- C3 witness: a 16-bit sample `16384` under both normalizations. -/
theorem normalization_bounded_witness :
    |hubertNormalize 16 16384| ≤ 1 ∧ |normalizeFeatureSample 12345| ≤ 1 :=
  normalization_bounded 16 16384 12345 (by norm_num) (by norm_num) (by norm_num)

/-- C3 counterexample: the feature demultiplexer normalizes the 16-bit
half-scale sample `16384` to `16384 / (2^31 - 1) ≈ 7.6e-6`, not to
`16384 / 2^15 = 1/2` as the bit-depth rule claims. -/
theorem normalization_counterexample :
    normalizeFeatureSample 16384 ≠ (16384 : ℚ) / 2 ^ (16 - 1) := by
  rw [normalizeFeatureSample]
  norm_num

/-- C5 (amended): `pre-process_hubert` fails with the invalid-audio
error exactly when the decoder reports zero channels or a zero sample
rate; the feature pipelines perform no such check — the spectral
pipeline on a zero-channel input proceeds and produces an empty table. -/
theorem startup_invalid_audio_check (channels sampleRate : ℕ) :
    (preprocessFlacCheck channels sampleRate =
        Except.error "Invalid audio file: zero channels or sample rate" ↔
      channels = 0 ∨ sampleRate = 0) ∧
    SpectralFeatures.spectralProcess 0 16000 [] = Except.ok [] := by
  constructor
  · rw [preprocessFlacCheck]
    split_ifs with h
    · simp [h]
    · simp [h]
  · rfl

/-- C5 counterexample: on a zero-channel input the spectral pipeline
does not fail with `InvalidAudioError` (it returns an empty table),
while the HuBERT preprocessor does. -/
theorem startup_check_counterexample :
    SpectralFeatures.spectralProcess 0 16000 [] = Except.ok [] ∧
    preprocessFlacCheck 0 16000 =
      Except.error "Invalid audio file: zero channels or sample rate" := by
  exact ⟨rfl, rfl⟩

lemma cellOfOpt_ne_noData (o : Option ℝ) : cellOfOpt o ≠ Cell.noData := by
  cases o <;> exact fun h => Cell.noConfusion h

lemma js_chanCells_length (chan : List JitterShimmer.JitterShimmerResult)
    (i : ℕ) : (JitterShimmer.chanCells chan i).length = 6 := by
  rw [JitterShimmer.chanCells]
  cases chan[i]? with
  | none => rfl
  | some r => rfl

lemma fa_chanCells_length (chan : List (ℚ × List ℚ)) (i : ℕ) :
    (FormantAnalysis.chanCells chan i).length = 4 := by
  rw [FormantAnalysis.chanCells]
  cases chan[i]? with
  | none => rfl
  | some p => simp

lemma pitch_chanCells_length (chan : List (ℝ × Option ℝ)) (i : ℕ) :
    (Pitch.chanCells chan i).length = 1 := by
  rw [Pitch.chanCells]
  cases chan[i]? with
  | none => rfl
  | some p => rfl

/-- C2 (amended): the mergers emit fixed-arity blocks per channel — 1
cell for pitch, 2 for RMS/energy, 4 for formants, 5 for spectral, 6 for
jitter/shimmer/HNR.  A channel with an entry at a row gets its
formatted value cells (a `None` field still renders as an empty
string); a channel without one gets empty-string cells in the jitter,
formant, spectral and RMS mergers, but the literal string `"no data"`
in the pitch merger. -/
theorem merger_fill_policy :
    (∀ (all : List (List JitterShimmer.JitterShimmerResult)) chan (i j : ℕ),
      all[j]? = some chan →
      (JitterShimmer.mergedRow all i).length = 1 + 6 * all.length ∧
      ((JitterShimmer.mergedRow all i).drop (1 + 6 * j)).take 6 =
        JitterShimmer.chanCells chan i) ∧
    (∀ (chan : List JitterShimmer.JitterShimmerResult) (i : ℕ),
      chan.length ≤ i →
      JitterShimmer.chanCells chan i = List.replicate 6 Cell.blank) ∧
    (∀ (chan : List JitterShimmer.JitterShimmerResult) (i : ℕ) r,
      chan[i]? = some r →
      JitterShimmer.chanCells chan i = JitterShimmer.cellsOfResult r ∧
      (JitterShimmer.cellsOfResult r).length = 6 ∧
      Cell.noData ∉ JitterShimmer.cellsOfResult r) ∧
    (∀ (all : List (List (ℚ × List ℚ))) chan (i j : ℕ), all[j]? = some chan →
      (FormantAnalysis.mergedRow all i).length = 1 + 4 * all.length ∧
      ((FormantAnalysis.mergedRow all i).drop (1 + 4 * j)).take 4 =
        FormantAnalysis.chanCells chan i) ∧
    (∀ (chan : List (ℚ × List ℚ)) (i : ℕ), chan.length ≤ i →
      FormantAnalysis.chanCells chan i = List.replicate 4 Cell.blank) ∧
    (∀ (chan : List (ℚ × List ℚ)) (i : ℕ) p, chan[i]? = some p →
      (FormantAnalysis.chanCells chan i).length = 4 ∧
      Cell.noData ∉ FormantAnalysis.chanCells chan i) ∧
    (∀ (all : List (List (ℝ × Option ℝ))) chan (i j : ℕ), all[j]? = some chan →
      (Pitch.mergedRow all i).length = 1 + 1 * all.length ∧
      ((Pitch.mergedRow all i).drop (1 + 1 * j)).take 1 =
        Pitch.chanCells chan i) ∧
    (∀ (chan : List (ℝ × Option ℝ)) (i : ℕ), chan.length ≤ i →
      Pitch.chanCells chan i = [Cell.noData]) ∧
    (∀ (chan : List (ℝ × Option ℝ)) (i : ℕ) p, chan[i]? = some p →
      Pitch.chanCells chan i = [cellOfOpt p.2]) ∧
    (∀ (sr : ℕ) (chan : List ℝ) (start : ℕ), chan.length ≤ start →
      SpectralFeatures.chanCellsAt sr chan start = List.replicate 5 Cell.blank ∧
      RmsEnergy.chanCellsAt sr chan start = [Cell.blank, Cell.blank]) ∧
    (∀ (sr : ℕ) (chan : List ℝ) (start : ℕ), start < chan.length →
      (SpectralFeatures.chanCellsAt sr chan start).length = 5 ∧
      (RmsEnergy.chanCellsAt sr chan start).length = 2 ∧
      (∀ cell ∈ SpectralFeatures.chanCellsAt sr chan start,
        cell.isValue = true) ∧
      (∀ cell ∈ RmsEnergy.chanCellsAt sr chan start, cell.isValue = true)) := by
  refine ⟨?_, ?_, ?_, ?_, ?_, ?_, ?_, ?_, ?_, ?_, ?_⟩
  · intro all chan i j hj
    constructor
    · rw [JitterShimmer.mergedRow, List.length_cons,
        flatMap_length_const _ 6 (fun chan => js_chanCells_length chan i)]
      ring
    · rw [JitterShimmer.mergedRow, show 1 + 6 * j = 6 * j + 1 by ring,
        List.drop_succ_cons]
      exact flatMap_block _ 6 (fun chan => js_chanCells_length chan i) all j chan hj
  · intro chan i hi
    rw [JitterShimmer.chanCells, List.getElem?_eq_none hi]
  · intro chan i r hr
    refine ⟨by rw [JitterShimmer.chanCells, hr], rfl, ?_⟩
    rw [JitterShimmer.cellsOfResult]
    intro hmem
    simp only [List.mem_cons, List.not_mem_nil, or_false] at hmem
    rcases hmem with h | h | h | h | h | h <;> exact cellOfOpt_ne_noData _ h.symm
  · intro all chan i j hj
    constructor
    · rw [FormantAnalysis.mergedRow, List.length_cons,
        flatMap_length_const _ 4 (fun chan => fa_chanCells_length chan i)]
      ring
    · rw [FormantAnalysis.mergedRow, show 1 + 4 * j = 4 * j + 1 by ring,
        List.drop_succ_cons]
      exact flatMap_block _ 4 (fun chan => fa_chanCells_length chan i) all j chan hj
  · intro chan i hi
    rw [FormantAnalysis.chanCells, List.getElem?_eq_none hi]
  · intro chan i p hp
    refine ⟨fa_chanCells_length chan i, ?_⟩
    rw [FormantAnalysis.chanCells, hp]
    intro hmem
    obtain ⟨f_idx, _, hf⟩ := List.mem_map.mp hmem
    revert hf
    cases hv : p.2[f_idx]? <;> exact fun hf => Cell.noConfusion hf
  · intro all chan i j hj
    constructor
    · rw [Pitch.mergedRow, List.length_cons,
        flatMap_length_const _ 1 (fun chan => pitch_chanCells_length chan i)]
      ring
    · rw [Pitch.mergedRow, show 1 + 1 * j = 1 * j + 1 by ring,
        List.drop_succ_cons]
      exact flatMap_block _ 1 (fun chan => pitch_chanCells_length chan i) all j chan hj
  · intro chan i hi
    rw [Pitch.chanCells, List.getElem?_eq_none hi]
  · intro chan i p hp
    rw [Pitch.chanCells, hp]
  · intro sr chan start h
    constructor
    · rw [SpectralFeatures.chanCellsAt, if_pos h]
    · rw [RmsEnergy.chanCellsAt, if_pos h]
  · intro sr chan start h
    have h1 : ¬ chan.length ≤ start := by omega
    refine ⟨?_, ?_, ?_, ?_⟩
    · rw [SpectralFeatures.chanCellsAt, if_neg h1]
      rfl
    · rw [RmsEnergy.chanCellsAt, if_neg h1]
      rfl
    · intro cell hcell
      rw [SpectralFeatures.chanCellsAt, if_neg h1] at hcell
      simp only [List.mem_cons, List.not_mem_nil, or_false] at hcell
      rcases hcell with h | h | h | h | h <;> rw [h] <;> rfl
    · intro cell hcell
      rw [RmsEnergy.chanCellsAt, if_neg h1] at hcell
      simp only [List.mem_cons, List.not_mem_nil, or_false] at hcell
      rcases hcell with h | h <;> rw [h] <;> rfl

/-- C2 counterexample: in the pitch merger a channel without an entry
at a row yields the literal cell `"no data"`, not the empty string (and
the RMS/energy merger emits 2 value columns per channel, not 1). -/
theorem merger_fill_counterexample :
    Pitch.mergedRows [[((0 : ℝ), some 100)], []] =
      [[Cell.val 0, Cell.val 100, Cell.noData]] ∧
    Cell.noData ≠ Cell.blank ∧
    (RmsEnergy.chanCellsAt 16000 [(0 : ℝ)] 0).length = 2 := by
  refine ⟨rfl, fun h => Cell.noConfusion h, rfl⟩

/-- C1 (amended): the pitch, jitter/shimmer/HNR and formant pipelines
skip a silent channel (no sample of absolute value above `1e-6`)
entirely, producing an empty result sequence; the spectral and
RMS/energy pipelines have no silence check and emit formatted value
cells (zero-valued rows) for a silent channel at every in-range frame
position. -/
theorem silence_skip (sample_rate : ℕ) (samples : List ℝ) (samplesQ : List ℚ)
    (kernel : List ℝ → List (ℝ × Option ℝ)) (min_f0 max_f0 : ℝ)
    (hs : ∀ v ∈ samples, |v| ≤ 1 / 1000000)
    (hq : ∀ v ∈ samplesQ, |v| ≤ 1 / 1000000) :
    JitterShimmer.channelResults sample_rate samples min_f0 max_f0 = [] ∧
    Pitch.channelResults kernel sample_rate samples = [] ∧
    FormantAnalysis.channelResults sample_rate samplesQ = [] ∧
    (∀ start, start < samples.length →
      (SpectralFeatures.chanCellsAt sample_rate samples start).all
        Cell.isValue = true ∧
      (RmsEnergy.chanCellsAt sample_rate samples start).all
        Cell.isValue = true) := by
  have hb : (samples.any fun v => decide ((1 : ℝ) / 1000000 < |v|)) = false := by
    rw [List.any_eq_false]
    intro v hv
    simpa using not_lt.mpr (hs v hv)
  have hbq : (samplesQ.any fun v => decide ((1 : ℚ) / 1000000 < |v|)) = false := by
    rw [List.any_eq_false]
    intro v hv
    simpa using not_lt.mpr (hq v hv)
  refine ⟨?_, ?_, ?_, ?_⟩
  · rw [JitterShimmer.channelResults, hb]
    rfl
  · rw [Pitch.channelResults, hb]
    rfl
  · rw [FormantAnalysis.channelResults, hbq]
    rfl
  · intro start hstart
    have h1 : ¬ samples.length ≤ start := by omega
    constructor
    · rw [SpectralFeatures.chanCellsAt, if_neg h1]
      rfl
    · rw [RmsEnergy.chanCellsAt, if_neg h1]
      rfl

/-- C1 witness: a one-sample silent channel at 16 kHz is skipped by the
jitter and formant pipelines but still gets five spectral value cells. -/
theorem silence_skip_witness :
    JitterShimmer.channelResults 16000 [0] 50 500 = [] ∧
    FormantAnalysis.channelResults 16000 [0] = [] ∧
    (SpectralFeatures.chanCellsAt 16000 [(0 : ℝ)] 0).all Cell.isValue = true := by
  have h := silence_skip 16000 [0] [0] (fun _ => []) 50 500
    (by intro v hv; simp at hv; simp [hv]) (by intro v hv; simp at hv; simp [hv])
  exact ⟨h.1, h.2.2.1, (h.2.2.2 0 (by simp)).1⟩

/-- C1 counterexample: the spectral pipeline does not skip an all-zero
(silent) channel: a one-sample silent mono input produces one table row
whose five channel cells are all formatted values, not an empty
sequence. -/
theorem silence_skip_counterexample :
    (∀ v ∈ [(0 : ℝ)], |v| ≤ 1 / 1000000) ∧
    (SpectralFeatures.mergedRows 16000 [[(0 : ℝ)]]).length = 1 ∧
    (SpectralFeatures.chanCellsAt 16000 [(0 : ℝ)] 0).length = 5 ∧
    (SpectralFeatures.chanCellsAt 16000 [(0 : ℝ)] 0).all Cell.isValue = true := by
  refine ⟨?_, rfl, rfl, rfl⟩
  intro v hv
  simp at hv
  simp [hv]

/-! ## Temporal ordering of assembled result sequences -/

lemma frame_starts_pairwise (frame hop len : ℕ) (hh : 0 < hop) :
    (frame_starts frame hop len).Pairwise (· < ·) := by
  rw [frame_starts_eq frame hop len hh]
  exact List.Pairwise.map _ (fun a b hab => (mul_lt_mul_right hh).mpr hab)
    (List.pairwise_lt_range _)

lemma frame_starts_le (frame hop len x : ℕ) (hh : 0 < hop)
    (hx : x ∈ frame_starts frame hop len) : x + frame ≤ len := by
  rw [frame_starts_eq frame hop len hh] at hx
  obtain ⟨k, hk, rfl⟩ := List.mem_map.mp hx
  have h2 := (numChunks_iff _ _ _ hh).mp (List.mem_range.mp hk)
  omega

lemma pairwise_le_div_cast {α : Type} [LinearOrderedField α] (l : List ℕ)
    (sr : ℕ) (h : l.Pairwise (· ≤ ·)) :
    (l.map (fun n : ℕ => (n : α) / (sr : α))).Pairwise (· ≤ ·) := by
  refine List.Pairwise.map _ (fun a b hab => ?_) h
  rcases Nat.eq_zero_or_pos sr with h0 | h0
  · simp [h0]
  · exact (div_le_div_iff_of_pos_right (by exact_mod_cast h0)).mpr
      (by exact_mod_cast hab)

/-- The concatenation, in chunk order, of each chunk's global frame
starts (`chunk start + frame start`) is non-decreasing, provided the
overlap is at most the frame length. -/
lemma chunk_frame_global_pairwise (c o frame hop L : ℕ)
    (hc : 0 < c) (hh : 0 < hop) (ho : o ≤ frame) :
    ((chunkSpec c o L).flatMap (fun se =>
      (frame_starts frame hop (se.2 - se.1)).map (se.1 + ·))).Pairwise
      (· ≤ ·) := by
  have hbound : ∀ k x, x ∈ (frame_starts frame hop
      (min (k * c + c + o) L - k * c)).map ((k * c) + ·) →
      k * c ≤ x ∧ x ≤ k * c + c := by
    intro k x hx
    obtain ⟨fs, hfs, rfl⟩ := List.mem_map.mp hx
    have h1 := frame_starts_le _ _ _ _ hh hfs
    constructor
    · omega
    · have h2 : min (k * c + c + o) L - k * c ≤ c + o := by omega
      omega
  rw [show ((chunkSpec c o L).flatMap (fun se =>
      (frame_starts frame hop (se.2 - se.1)).map (se.1 + ·))) =
      ((chunkSpec c o L).map (fun se =>
        (frame_starts frame hop (se.2 - se.1)).map (se.1 + ·))).flatten from rfl,
    List.pairwise_flatten]
  constructor
  · intro l hl
    obtain ⟨se, _, rfl⟩ := List.mem_map.mp hl
    exact List.Pairwise.map _ (fun a b hab => by omega)
      (frame_starts_pairwise frame hop _ hh)
  · rw [chunkSpec, List.map_map, List.pairwise_map]
    refine List.Pairwise.imp ?_ (List.pairwise_lt_range _)
    intro k k' hkk x hx y hy
    simp only [Function.comp] at hx hy
    have h1 := (hbound k x hx).2
    have h2 := (hbound k' y hy).1
    have h3 : (k + 1) * c ≤ k' * c := Nat.mul_le_mul_right c (by omega)
    have h4 : (k + 1) * c = k * c + c := by ring
    omega

lemma analyze_window_time (w : List ℝ) (sr : ℕ) (t minf maxf : ℝ) :
    (JitterShimmer.analyze_window w sr t minf maxf).time_sec = t := by
  rw [JitterShimmer.analyze_window]
  cases JitterShimmer.estimate_f0_autocorr (JitterShimmer.hannWindowed w)
      sr minf maxf with
  | none => rfl
  | some f0 =>
    dsimp only
    split_ifs <;> rfl

lemma window_indices_pairwise (len wl hop : ℕ) (hh : 0 < hop) :
    (JitterShimmer.window_indices len wl hop).Pairwise (· < ·) := by
  refine List.Pairwise.sublist (List.takeWhile_sublist _) ?_
  exact List.Pairwise.map _ (fun a b hab => (mul_lt_mul_right hh).mpr hab)
    (List.pairwise_lt_range _)

lemma chunkSpec_snd_le (c o L : ℕ) (se : ℕ × ℕ) (hse : se ∈ chunkSpec c o L) :
    se.2 ≤ L ∧ se.2 - se.1 = min (se.1 + c + o) L - se.1 := by
  obtain ⟨k, _, rfl⟩ := List.mem_map.mp hse
  exact ⟨min_le_right _ _, rfl⟩

/-- C9: within every assembled PerChannelResultSequence the `time_sec`
values are non-decreasing, for the jitter/shimmer windows, the
chunk-order concatenation of formant chunk results, the (spec-modelled)
pitch kernel run through `process_audio`'s chunk executor, and the
spectral and RMS frame rows. -/
theorem result_times_sorted (sample_rate hop : ℕ) (samples : List ℝ)
    (samplesQ : List ℚ) (est : List ℝ → Option ℝ) (min_f0 max_f0 : ℝ)
    (hsr : 100 ≤ sample_rate) (hhop : 0 < hop) :
    (((JitterShimmer.channelResults sample_rate samples min_f0 max_f0).map
      (·.time_sec)).Pairwise (· ≤ ·)) ∧
    (((FormantAnalysis.channelResults sample_rate samplesQ).map
      Prod.fst).Pairwise (· ≤ ·)) ∧
    (((Pitch.channelResults
        (Pitch.pitchKernelModelled est sample_rate (Pitch.frame_len sample_rate) hop)
        sample_rate samples).map Prod.fst).Pairwise (· ≤ ·)) ∧
    (∀ bufs : List (List ℝ),
      ((stepBy (maxLen bufs) (SpectralFeatures.frame_len sample_rate)).map
        (fun s : ℕ => (s : ℝ) / (sample_rate : ℝ))).Pairwise (· ≤ ·) ∧
      ((stepBy (maxLen bufs) (RmsEnergy.frame_len sample_rate)).map
        (fun s : ℕ => (s : ℝ) / (sample_rate : ℝ))).Pairwise (· ≤ ·)) := by
  have hstep : ∀ len hp : ℕ, (stepBy len hp).Pairwise (· ≤ ·) :=
    fun len hp => List.Pairwise.map _
      (fun a b hab => Nat.mul_le_mul_right hp (le_of_lt hab))
      (List.pairwise_lt_range _)
  refine ⟨?_, ?_, ?_, ?_⟩
  · rw [JitterShimmer.channelResults]
    split_ifs with hsil
    · rw [List.map_map]
      have heq : ((fun r => JitterShimmer.JitterShimmerResult.time_sec r) ∘
          fun start => JitterShimmer.analyze_window
            ((samples.drop start).take (JitterShimmer.window_len sample_rate))
            sample_rate ((start : ℝ) / (sample_rate : ℝ)) min_f0 max_f0) =
          fun start : ℕ => (start : ℝ) / (sample_rate : ℝ) := by
        funext start
        exact analyze_window_time _ _ _ _ _
      rw [heq]
      exact pairwise_le_div_cast _ _
        ((window_indices_pairwise _ _ _ (by rw [JitterShimmer.hop_len]; omega)).imp
          le_of_lt)
    · simp
  · rw [FormantAnalysis.channelResults]
    split_ifs with hsil
    · rw [chunkLoopFuel_eq_chunkSpec _ _ _
        (by rw [FormantAnalysis.chunk_samples]; omega), Option.getD_some]
      set c := FormantAnalysis.chunk_samples sample_rate with hc
      set o := FormantAnalysis.overlap_samples sample_rate with ho
      set frame := FormantAnalysis.frame_len sample_rate with hframe
      set hp := FormantAnalysis.hop_len sample_rate with hhp
      have heq : ((chunkSpec c o samplesQ.length).map
          (FormantAnalysis.chunkResults sample_rate frame hp samplesQ)).flatten.map
            Prod.fst =
          ((chunkSpec c o samplesQ.length).flatMap (fun se =>
            (frame_starts frame hp (se.2 - se.1)).map (se.1 + ·))).map
            (fun n : ℕ => (n : ℚ) / (sample_rate : ℚ)) := by
        rw [List.map_flatten, List.map_map,
          show ((chunkSpec c o samplesQ.length).flatMap (fun se =>
            (frame_starts frame hp (se.2 - se.1)).map (se.1 + ·))) =
            ((chunkSpec c o samplesQ.length).map (fun se =>
              (frame_starts frame hp (se.2 - se.1)).map (se.1 + ·))).flatten
            from rfl,
          List.map_flatten, List.map_map]
        congr 1
        refine List.map_congr_left ?_
        intro se hse
        obtain ⟨hse2, _⟩ := chunkSpec_snd_le c o samplesQ.length se hse
        simp only [Function.comp]
        rw [FormantAnalysis.chunkResults]
        have hlen : ((samplesQ.drop se.1).take (se.2 - se.1)).length =
            se.2 - se.1 := by
          rw [List.length_take, List.length_drop]
          omega
        rw [hlen, List.map_map, List.map_map]
        refine List.map_congr_left ?_
        intro fs _
        simp only [Function.comp]
      rw [heq]
      exact pairwise_le_div_cast _ _
        (chunk_frame_global_pairwise c o frame hp samplesQ.length
          (by rw [hc, FormantAnalysis.chunk_samples]; omega)
          (by rw [hhp, FormantAnalysis.hop_len]; omega)
          (by rw [ho, hframe]; exact le_refl _))
    · simp
  · rw [Pitch.channelResults]
    split_ifs with hsil
    · rw [chunkLoopFuel_eq_chunkSpec _ _ _
        (by rw [Pitch.chunk_samples]; omega), Option.getD_some]
      set c := Pitch.chunk_samples sample_rate with hc
      set o := Pitch.overlap_samples sample_rate with ho
      set frame := Pitch.frame_len sample_rate with hframe
      have heq : ((chunkSpec c o samples.length).map
          (Pitch.chunkResults
            (Pitch.pitchKernelModelled est sample_rate frame hop)
            sample_rate samples)).flatten.map Prod.fst =
          ((chunkSpec c o samples.length).flatMap (fun se =>
            (frame_starts frame hop (se.2 - se.1)).map (se.1 + ·))).map
            (fun n : ℕ => (n : ℝ) / (sample_rate : ℝ)) := by
        rw [List.map_flatten, List.map_map,
          show ((chunkSpec c o samples.length).flatMap (fun se =>
            (frame_starts frame hop (se.2 - se.1)).map (se.1 + ·))) =
            ((chunkSpec c o samples.length).map (fun se =>
              (frame_starts frame hop (se.2 - se.1)).map (se.1 + ·))).flatten
            from rfl,
          List.map_flatten, List.map_map]
        congr 1
        refine List.map_congr_left ?_
        intro se hse
        obtain ⟨hse2, _⟩ := chunkSpec_snd_le c o samples.length se hse
        simp only [Function.comp]
        rw [Pitch.chunkResults, Pitch.pitchKernelModelled]
        have hlen : ((samples.drop se.1).take (se.2 - se.1)).length =
            se.2 - se.1 := by
          rw [List.length_take, List.length_drop]
          omega
        rw [hlen, List.map_map, List.map_map, List.map_map]
        refine List.map_congr_left ?_
        intro fs _
        simp only [Function.comp]
        push_cast
        ring
      rw [heq]
      exact pairwise_le_div_cast _ _
        (chunk_frame_global_pairwise c o frame hop samples.length
          (by rw [hc, Pitch.chunk_samples]; omega) hhop
          (by rw [ho, hframe]; exact le_refl _))
    · simp
  · intro bufs
    exact ⟨pairwise_le_div_cast _ _ (hstep _ _),
      pairwise_le_div_cast _ _ (hstep _ _)⟩

/-- C9 witness: a concrete 16 kHz two-window channel; the assembled
jitter result times are non-decreasing. -/
theorem result_times_sorted_witness :
    ((JitterShimmer.channelResults 16000 [1] 50 500).map
      (·.time_sec)).Pairwise (· ≤ ·) :=
  (result_times_sorted 16000 1 [1] [1] (fun _ => none) 50 500
    (by norm_num) (by norm_num)).1

/-- C10: `find_formants` returns an empty formant list for every window
shorter than 512 samples; since the formant frame length is
`⌊0.025 · sample_rate⌋`, every frame of every channel yields zero
formants whenever `sample_rate < 20480`, so every formant value cell of
the merged table is blank while the rows (and their time cells) are
still emitted. -/
theorem formant_short_frame_blank (sample_rate : ℕ) (hsr : sample_rate < 20480) :
    (∀ samples : List ℚ, samples.length < 512 →
      FormantAnalysis.find_formants samples sample_rate = []) ∧
    FormantAnalysis.frame_len sample_rate < 512 ∧
    (∀ samples : List ℚ, ∀ r ∈ FormantAnalysis.channelResults sample_rate samples,
      r.2 = []) ∧
    (∀ all : List (List (ℚ × List ℚ)),
      (∀ chan ∈ all, ∀ r ∈ chan, (r : ℚ × List ℚ).2 = []) →
      (FormantAnalysis.mergedRows all).length = maxLen all ∧
      ∀ row ∈ FormantAnalysis.mergedRows all, ∀ cell ∈ row.drop 1,
        cell = Cell.blank) := by
  have hguard : ∀ samples : List ℚ, samples.length < 512 →
      FormantAnalysis.find_formants samples sample_rate = [] := by
    intro samples h
    rw [FormantAnalysis.find_formants, if_pos h]
  have hframe : FormantAnalysis.frame_len sample_rate < 512 := by
    rw [FormantAnalysis.frame_len]
    omega
  refine ⟨hguard, hframe, ?_, ?_⟩
  · intro samples r hr
    rw [FormantAnalysis.channelResults] at hr
    split_ifs at hr with hsil
    · obtain ⟨block, hblock, hrb⟩ := List.mem_flatten.mp hr
      obtain ⟨se, _, hse⟩ := List.mem_map.mp hblock
      rw [← hse, FormantAnalysis.chunkResults] at hrb
      obtain ⟨fs, _, hfs⟩ := List.mem_map.mp hrb
      have hr2 : r.2 = FormantAnalysis.find_formants
          (((((samples.drop se.1).take (se.2 - se.1))).drop fs).take
            (FormantAnalysis.frame_len sample_rate)) sample_rate := by
        rw [← hfs]
      rw [hr2]
      exact hguard _ (lt_of_le_of_lt (by simpa using List.length_take_le _ _) hframe)
    · simp at hr
  · intro all hall
    constructor
    · rw [FormantAnalysis.mergedRows, List.length_map, List.length_range]
    · intro row hrow cell hcell
      rw [FormantAnalysis.mergedRows] at hrow
      obtain ⟨i, _, hi⟩ := List.mem_map.mp hrow
      rw [← hi, FormantAnalysis.mergedRow] at hcell
      simp only [List.drop_succ_cons, List.drop_zero] at hcell
      obtain ⟨chan, hchan, hc⟩ := List.mem_flatMap.mp hcell
      rw [FormantAnalysis.chanCells] at hc
      rcases hp : chan[i]? with _ | p
      · rw [hp] at hc
        simp at hc
        exact hc
      · rw [hp] at hc
        obtain ⟨f_idx, _, hf⟩ := List.mem_map.mp hc
        have hp2 : p.2 = [] := hall chan hchan p (List.getElem?_mem hp)
        rw [hp2] at hf
        simpa using hf.symm

/-- C10 witness: at 16 kHz a full 400-sample (25 ms) frame yields no
formants. -/
theorem formant_short_frame_blank_witness :
    FormantAnalysis.find_formants (List.replicate 400 (1 : ℚ)) 16000 = [] :=
  (formant_short_frame_blank 16000 (by norm_num)).1 _
    (by rw [List.length_replicate]; norm_num)

/-! ## Sparse-period analysis windows -/

/-- The early return of `analyze_window` at fewer than 5 extracted
periods (jitter_shimmer.rs lines 209-219): every perturbation measure
and the HNR are `None`, and only the F0 estimate survives. -/
lemma analyze_window_early (window : List ℝ) (sample_rate : ℕ)
    (time_sec min_f0 max_f0 f0 : ℝ)
    (hf0 : JitterShimmer.estimate_f0_autocorr (JitterShimmer.hannWindowed window)
      sample_rate min_f0 max_f0 = some f0)
    (hp : (JitterShimmer.extract_periods (JitterShimmer.hannWindowed window)
      ((sample_rate : ℝ) / f0)).length < 5) :
    JitterShimmer.analyze_window window sample_rate time_sec min_f0 max_f0 =
      ⟨time_sec, some f0, none, none, none, none, none⟩ := by
  rw [JitterShimmer.analyze_window, hf0]
  dsimp only
  rw [if_pos hp]

/-- The 5-sample window `[1, 2, 1, 2, 1]` Hann-windows to
`[0, 1, 1, 1, 0]` (the endpoint weights vanish, `cos` is exact at
quarter turns). -/
lemma js_hann_eval :
    JitterShimmer.hannWindowed [1, 2, 1, 2, 1] = [0, 1, 1, 1, 0] := by
  rw [JitterShimmer.hannWindowed,
    show ([1, 2, 1, 2, 1] : List ℝ).length = 5 from rfl,
    show List.range 5 = [0, 1, 2, 3, 4] from rfl]
  have hc1 : Real.cos (2 * Real.pi / 4) = 0 := by
    rw [show 2 * Real.pi / 4 = Real.pi / 2 by ring]
    exact Real.cos_pi_div_two
  have hc2 : Real.cos (2 * Real.pi * (2 : ℝ) / 4) = -1 := by
    rw [show 2 * Real.pi * (2 : ℝ) / 4 = Real.pi by ring]
    exact Real.cos_pi
  have hc3 : Real.cos (2 * Real.pi * (3 : ℝ) / 4) = 0 := by
    rw [show 2 * Real.pi * (3 : ℝ) / 4 = Real.pi + Real.pi / 2 by ring,
      Real.cos_add, Real.cos_pi, Real.sin_pi, Real.cos_pi_div_two]
    ring
  have hc4 : Real.cos (2 * Real.pi * (4 : ℝ) / 4) = 1 := by
    rw [show 2 * Real.pi * (4 : ℝ) / 4 = 2 * Real.pi by ring]
    exact Real.cos_two_pi
  norm_num [List.getD, hc1, hc2, hc3, hc4]

/-- On `[0, 1, 1, 1, 0]` at 8 Hz with an F0 search range of 2-4 Hz the
autocorrelation estimator picks lag 2 (normalized correlation `1/2 >
0.3`) and reports F0 = 4 Hz. -/
lemma js_estimate_eval :
    JitterShimmer.estimate_f0_autocorr [0, 1, 1, 1, 0] 8 2 4 = some 4 := by
  rw [JitterShimmer.estimate_f0_autocorr]
  have h4 : Real.sqrt 4 = 2 := by
    rw [show (4 : ℝ) = 2 ^ 2 by norm_num, Real.sqrt_sq (by norm_num : (0 : ℝ) ≤ 2)]
  norm_num [show Int.toNat 2 = 2 from rfl, show Int.toNat 4 = 4 from rfl,
    show List.range' 2 3 = [2, 3, 4] from rfl,
    show List.range 3 = [0, 1, 2] from rfl,
    show List.range 2 = [0, 1] from rfl,
    show List.range 1 = [0] from rfl,
    List.getD, h4]

/-- With F0 = 4 at 8 Hz the period is 2 samples, so `[0, 1, 1, 1, 0]`
yields exactly two periods. -/
lemma js_periods_eval :
    JitterShimmer.extract_periods [0, 1, 1, 1, 0] (((8 : ℕ) : ℝ) / 4) =
      [[0, 1], [1, 1]] := by
  rw [JitterShimmer.extract_periods]
  norm_num [show Int.toNat 2 = 2 from rfl]
  rw [JitterShimmer.extractPeriodsGo]
  norm_num
  rw [JitterShimmer.extractPeriodsGo]
  norm_num
  rw [JitterShimmer.extractPeriodsGo]
  norm_num

/-- C4 (amended): an analysis window from which fewer than 5 pitch
periods are extracted has `None` for jitter-PPQ5 and shimmer-APQ5 —
and equally for jitter-local, shimmer-local and HNR; only the F0
estimate may still be present.  (`calculate_jitter_local` itself needs
only 2 periods, but `analyze_window` never calls it below 5.) -/
theorem few_periods_all_none (window : List ℝ) (sample_rate : ℕ)
    (time_sec min_f0 max_f0 f0 : ℝ)
    (hf0 : JitterShimmer.estimate_f0_autocorr (JitterShimmer.hannWindowed window)
      sample_rate min_f0 max_f0 = some f0)
    (hp : (JitterShimmer.extract_periods (JitterShimmer.hannWindowed window)
      ((sample_rate : ℝ) / f0)).length < 5) :
    JitterShimmer.analyze_window window sample_rate time_sec min_f0 max_f0 =
      ⟨time_sec, some f0, none, none, none, none, none⟩ :=
  analyze_window_early window sample_rate time_sec min_f0 max_f0 f0 hf0 hp

/-- C4 witness: the window `[1, 2, 1, 2, 1]` at 8 Hz (F0 range 2-4 Hz)
gets F0 = 4 with exactly 2 extracted periods, and every other field is
`None`. -/
theorem few_periods_all_none_witness :
    JitterShimmer.analyze_window [1, 2, 1, 2, 1] 8 0 2 4 =
      ⟨0, some 4, none, none, none, none, none⟩ :=
  few_periods_all_none [1, 2, 1, 2, 1] 8 0 2 4 4
    (by rw [js_hann_eval]; exact js_estimate_eval)
    (by rw [js_hann_eval, js_periods_eval]; norm_num)

/-- C4 counterexample: at the concrete window `[1, 2, 1, 2, 1]` (8 Hz,
F0 range 2-4 Hz) an F0 is found and 2 periods (≥ 2, < 5) are
extracted, yet jitter-local and shimmer-local are `None`; indeed no
window with 2-4 extracted periods ever carries a jitter-local or
shimmer-local value. -/
theorem few_periods_counterexample :
    (JitterShimmer.estimate_f0_autocorr
        (JitterShimmer.hannWindowed [1, 2, 1, 2, 1]) 8 2 4 = some 4 ∧
      (JitterShimmer.extract_periods (JitterShimmer.hannWindowed [1, 2, 1, 2, 1])
        (((8 : ℕ) : ℝ) / 4)).length = 2 ∧
      (JitterShimmer.analyze_window [1, 2, 1, 2, 1] 8 0 2 4).f0_hz = some 4 ∧
      (JitterShimmer.analyze_window [1, 2, 1, 2, 1] 8 0 2 4).jitter_local = none ∧
      (JitterShimmer.analyze_window [1, 2, 1, 2, 1] 8 0 2 4).shimmer_local = none) ∧
    ¬ ∃ (window : List ℝ) (sample_rate : ℕ) (t min_f0 max_f0 f0 : ℝ),
      JitterShimmer.estimate_f0_autocorr (JitterShimmer.hannWindowed window)
        sample_rate min_f0 max_f0 = some f0 ∧
      2 ≤ (JitterShimmer.extract_periods (JitterShimmer.hannWindowed window)
        ((sample_rate : ℝ) / f0)).length ∧
      (JitterShimmer.extract_periods (JitterShimmer.hannWindowed window)
        ((sample_rate : ℝ) / f0)).length < 5 ∧
      ((JitterShimmer.analyze_window window sample_rate t min_f0 max_f0).jitter_local
          ≠ none ∨
        (JitterShimmer.analyze_window window sample_rate t min_f0 max_f0).shimmer_local
          ≠ none) := by
  have heval : JitterShimmer.analyze_window [1, 2, 1, 2, 1] 8 0 2 4 =
      ⟨0, some 4, none, none, none, none, none⟩ :=
    analyze_window_early [1, 2, 1, 2, 1] 8 0 2 4 4
      (by rw [js_hann_eval]; exact js_estimate_eval)
      (by rw [js_hann_eval, js_periods_eval]; norm_num)
  refine ⟨⟨by rw [js_hann_eval]; exact js_estimate_eval,
    by rw [js_hann_eval, js_periods_eval]; rfl,
    by rw [heval], by rw [heval], by rw [heval]⟩, ?_⟩
  rintro ⟨w, sr, t, minf, maxf, f0, h1, h2, h3, h4⟩
  rw [analyze_window_early w sr t minf maxf f0 h1 h3] at h4
  simp at h4

end VidAnalyzer
